import Mathlib

/-!
Verification development for the `hpct-interview` repository
(`lib/hpctinterview/interview.py`, `lib/hpctinterview/lib.py`).

The Python code is shallowly embedded: Python values stored in the
settings dictionary become the inductive type `PyVal`; the nested
dictionary wrapped by `DottedDictWrapper` becomes the inductive type
`Val` over ordered association lists (Python dicts preserve insertion
order); fallible Python operations (those that raise) return
`Option`/`Except`.  Regular expressions are embedded as a small AST
`Rx` together with a Brzozowski-derivative matcher implementing
Python's `re.match` semantics (anchored at the start, any prefix may
match); a configuration field holding a pattern string in Python holds
the compiled `Rx` here.
-/

namespace HpctInterview

/-- A Python value as stored in the settings dictionary or appearing in
an item configuration: `None`, booleans, integers, floats (modelled as
rationals), strings, and lists. -/
inductive PyVal where
  | none
  | bool (b : Bool)
  | int (n : Int)
  | float (q : Rat)
  | str (s : String)
  | list (xs : List PyVal)
deriving Repr

/-- Numeric view used by Python `==`/`<` cross-type comparison:
`True == 1`, `1 == 1.0`, etc. -/
def PyVal.toRat? : PyVal → Option Rat
  | .bool b => some (if b then 1 else 0)
  | .int n => some n
  | .float q => some q
  | _ => Option.none

/-- Python `==` on embedded values (numeric types compare by value
across `bool`/`int`/`float`; lists compare elementwise; `None` only
equals `None`). -/
def pyEq : PyVal → PyVal → Bool
  | .none, .none => true
  | .str a, .str b => a = b
  | .list a, .list b => pyEqList a b
  | a, b =>
    match a.toRat?, b.toRat? with
    | some x, some y => x = y
    | _, _ => false
where
  pyEqList : List PyVal → List PyVal → Bool
  | [], [] => true
  | x :: xs, y :: ys => pyEq x y && pyEqList xs ys
  | _, _ => false

/-- Python truthiness `bool(v)`. -/
def pyTruthy : PyVal → Bool
  | .none => false
  | .bool b => b
  | .int n => n ≠ 0
  | .float q => q ≠ 0
  | .str s => s ≠ ""
  | .list xs => ¬ xs.isEmpty

/-- Truncation toward zero, as Python `int(float)`. -/
def ratTrunc (q : Rat) : Int :=
  if q ≥ 0 then q.floor else q.ceil

/-! ### String primitives

The few Python string operations the code uses (`in`, `split`,
`split(sep, 1)`, `int(str)`, `float(str)`, `str.split()`) are defined
here by structural recursion over the character list, so that every
definition in this file evaluates inside the kernel.  Numeric-literal
parsing covers the canonical `[+-]digits[.digits]` forms the
interview's configurations use. -/

/-- Python `c in s` for a single character. -/
def strHasChar (c : Char) (s : String) : Bool := s.data.any (fun x => x = c)

/-- Worker for `splitChar`. -/
def splitCharAux (sep : Char) : List Char → List Char → List String
  | [], acc => [String.mk acc.reverse]
  | c :: cs, acc =>
    if c = sep then String.mk acc.reverse :: splitCharAux sep cs []
    else splitCharAux sep cs (c :: acc)

/-- Python `s.split(sep)` for a single-character separator
(`"".split(".") == [""]`, `"a.".split(".") == ["a", ""]`). -/
def splitChar (sep : Char) (s : String) : List String := splitCharAux sep s.data []

/-- Worker for `splitFirstChar`. -/
def splitFirstCharAux (sep : Char) : List Char → List Char → Option (String × String)
  | [], _ => Option.none
  | c :: cs, acc =>
    if c = sep then some (String.mk acc.reverse, String.mk cs)
    else splitFirstCharAux sep cs (c :: acc)

/-- Python `s.split(sep, 1)` for a single-character separator;
`Option.none` (no separator) makes the source's two-name unpacking
raise ValueError. -/
def splitFirstChar (sep : Char) (s : String) : Option (String × String) :=
  splitFirstCharAux sep s.data []

/-- Accumulate decimal digits; any non-digit character fails. -/
def digitsVal? : List Char → Nat → Option Nat
  | [], acc => some acc
  | c :: cs, acc =>
    if c.isDigit then digitsVal? cs (acc * 10 + (c.toNat - '0'.toNat))
    else Option.none

/-- Python `int(str)` on canonical `[+-]digits` forms. -/
def strToInt? (s : String) : Option Int :=
  match s.data with
  | [] => Option.none
  | '-' :: cs =>
    match cs with
    | [] => Option.none
    | _ => (digitsVal? cs 0).map (fun n => -(n : Int))
  | '+' :: cs =>
    match cs with
    | [] => Option.none
    | _ => (digitsVal? cs 0).map (fun n => (n : Int))
  | cs => (digitsVal? cs 0).map (fun n => (n : Int))

/-- Nonnegative integer literal. -/
def strToNat? (s : String) : Option Nat :=
  match s.data with
  | [] => Option.none
  | cs => digitsVal? cs 0

/-- Python `int(v)`: identity on ints, `True`/`False` to 1/0,
truncation on floats, parse for strings (canonical `[-]digits` forms),
`TypeError`/`ValueError` (= `Option.none`) otherwise. -/
def pyToInt : PyVal → Option Int
  | .int n => some n
  | .bool b => some (if b then 1 else 0)
  | .float q => some (ratTrunc q)
  | .str s => strToInt? s
  | _ => Option.none

/-- Parse a canonical decimal literal `[-]digits[.digits]` into a
rational, as Python `float(str)` on such inputs. -/
def parseDecimal (s : String) : Option Rat :=
  match splitChar '.' s with
  | [a] => (strToInt? a).map (fun n => (n : Rat))
  | [a, b] =>
    match strToInt? a, strToNat? b with
    | some n, some frac =>
      let den : Nat := 10 ^ b.length
      let mag : Rat := (n.natAbs : Rat) + (frac : Rat) / (den : Rat)
      some (if (match a.data with | '-' :: _ => true | _ => false) || decide (n < 0)
            then -mag else mag)
    | _, _ => Option.none
  | _ => Option.none

/-- Python `float(v)`. -/
def pyToFloat : PyVal → Option Rat
  | .int n => some n
  | .bool b => some (if b then 1 else 0)
  | .float q => some q
  | .str s => parseDecimal s
  | _ => Option.none

/-- Python `%` (floored modulus, sign follows the divisor). -/
def pyMod (a b : Int) : Int := Int.fmod a b

/-- Membership `v in values` using Python `==`. -/
def pyMem (v : PyVal) (vs : List PyVal) : Bool := vs.any (pyEq v)

/-- Python whitespace for `str.split()`. -/
def isPyWs (c : Char) : Bool := c = ' ' || c = '\t' || c = '\n' || c = '\r'

/-- Worker for `pySplitWs`. -/
def splitWsAux : List Char → List Char → List String
  | [], [] => []
  | [], acc => [String.mk acc.reverse]
  | c :: cs, acc =>
    if isPyWs c then
      match acc with
      | [] => splitWsAux cs []
      | _ => String.mk acc.reverse :: splitWsAux cs []
    else splitWsAux cs (c :: acc)

/-- Python `str.split()` (split on whitespace runs, no empty parts;
`"".split() == []`). -/
def pySplitWs (s : String) : List String := splitWsAux s.data []

/-! ## The settings store (`DottedDictWrapper`, lib.py lines 8-94)

The wrapped dictionary `self.d` is a nested Python dict.  We model it
as an ordered association list whose values are either leaves (plain
Python values) or nested dicts. -/

mutual
/-- A value inside the wrapped dictionary: a leaf Python value or a
nested dict. -/
inductive Val where
  | leaf (v : PyVal)
  | node (d : Assoc)
deriving Repr

/-- An ordered association list modelling one Python dict level
(insertion order preserved, keys unique). -/
inductive Assoc where
  | nil
  | cons (k : String) (v : Val) (rest : Assoc)
deriving Repr
end

/-- Dict lookup `d[k]` (as `Option`). -/
def Assoc.find? : Assoc → String → Option Val
  | .nil, _ => Option.none
  | .cons k v rest, key => if k = key then some v else rest.find? key

/-- Dict store `d[k] = v`: replace in place if the key is present
(Python keeps the original position), append otherwise. -/
def Assoc.store : Assoc → String → Val → Assoc
  | .nil, key, v => .cons key v .nil
  | .cons k w rest, key, v =>
    if k = key then .cons k v rest else .cons k w (rest.store key v)

/-- `DottedDictWrapper._find` (lib.py 55-62): follow the path segment
by segment; descending into a non-dict raises (`Option.none`), a
missing key raises. -/
def findPath : Val → List String → Option Val
  | v, [] => some v
  | .node d, k :: ks => (d.find? k).bind (fun v => findPath v ks)
  | .leaf _, _ :: _ => Option.none

/-- `DottedDictWrapper.__setitem__` (lib.py 38-53): walk `keys[:-1]`
creating missing intermediate dicts; any failure (an intermediate or
final position holding a non-dict) raises `KeyError` (`Option.none`).
In the source every failing path raises before any mutation, so
`Option.none` faithfully leaves the store unchanged. -/
def setPath : Val → List String → PyVal → Option Val
  | .node d, [k], value => some (.node (d.store k (.leaf value)))
  | .leaf _, [_], _ => Option.none
  | .node d, k :: k2 :: ks, value =>
    (match d.find? k with
     | Option.none =>
       -- `v[k] = {}` then descend into the fresh dict
       (setPath (.node .nil) (k2 :: ks) value).map (fun sub => .node (d.store k sub))
     | some v =>
       (setPath v (k2 :: ks) value).map (fun sub => .node (d.store k sub)))
  | .leaf _, _ :: _ :: _, _ => Option.none
  | _, [], _ => Option.none

/-- Store write through a dotted key: `settings[key] = value`. -/
def storeSet (d : Assoc) (key : String) (value : PyVal) : Option Assoc :=
  match setPath (.node d) (splitChar '.' key) value with
  | some (.node d2) => some d2
  | _ => Option.none

/-- Store lookup through a dotted key (`_find` from the root);
`__contains__` is `(storeFind d key).isSome` and `__getitem__`
returns the found value (dicts come back wrapped, i.e. as `.node`). -/
def storeFind (d : Assoc) (key : String) : Option Val :=
  findPath (.node d) (splitChar '.' key)

/-- `DottedDictWrapper.get(key, default)` (lib.py 76-79). -/
def storeGetD (d : Assoc) (key : String) (dflt : Val) : Val :=
  (storeFind d key).getD dflt

mutual
/-- `DottedDictWrapper._walk` (lib.py 64-71) on a single value:
flatten to `(dotted-path, leaf)` pairs in iteration order.  `pref` is
the accumulated prefix; the empty string plays Python's falsy
`None`/`""` role. -/
def valItems : Val → String → List (String × PyVal)
  | .leaf v, pref => [(pref, v)]
  | .node d, pref => assocItems d pref
/-- `_walk` over one dict level. -/
def assocItems : Assoc → String → List (String × PyVal)
  | .nil, _ => []
  | .cons k v rest, pref =>
    let p := if pref = "" then k else pref ++ "." ++ k
    valItems v p ++ assocItems rest pref
end

/-- `items()` = `_walk(self.d)`. -/
def storeItems (d : Assoc) : List (String × PyVal) := assocItems d ""

/-- `list(settings.keys())`. -/
def storeKeys (d : Assoc) : List String := (storeItems d).map Prod.fst

/-! ## Regular expressions (`re.match` semantics) -/

/-- Regular-expression AST for the patterns the configuration can
carry (a compiled Python pattern). -/
inductive Rx where
  | emp
  | eps
  | chr (c : Char)
  | any
  | alt (a b : Rx)
  | cat (a b : Rx)
  | star (a : Rx)
deriving Repr

/-- Does the regular expression accept the empty string? -/
def Rx.nullable : Rx → Bool
  | .emp => false
  | .eps => true
  | .chr _ => false
  | .any => false
  | .alt a b => a.nullable || b.nullable
  | .cat a b => a.nullable && b.nullable
  | .star _ => true

/-- Brzozowski derivative. -/
def Rx.deriv : Rx → Char → Rx
  | .emp, _ => .emp
  | .eps, _ => .emp
  | .chr c, x => if c = x then .eps else .emp
  | .any, _ => .eps
  | .alt a b, x => .alt (a.deriv x) (b.deriv x)
  | .cat a b, x =>
    if a.nullable then .alt (.cat (a.deriv x) b) (b.deriv x)
    else .cat (a.deriv x) b
  | .star a, x => .cat (a.deriv x) (.star a)

/-- Does some prefix of `cs` match `r`?  This is Python's
`re.match(r, s)` truthiness (anchored at the start only). -/
def rxMatchList : Rx → List Char → Bool
  | r, [] => r.nullable
  | r, c :: cs => r.nullable || rxMatchList (r.deriv c) cs

/-- `re.match(pattern, s)` as a Boolean. -/
def rxMatch (r : Rx) (s : String) : Bool := rxMatchList r s.data

/-- Literal string as a regular expression. -/
def Rx.lit (s : String) : Rx := s.data.foldr (fun c r => .cat (.chr c) r) .eps

/-- The compiled form of the pattern `"^temp\\..*"` (the leading `^`
is redundant under `re.match`). -/
def rxTempAny : Rx := .cat (Rx.lit "temp.") (.star .any)

/-! ## Item configurations (interview.py module docstring, lines 30-158)

One interview item is a YAML mapping.  The scalar fields are collected
in `ItemFields`; the recursive `interview` subtree of a branch lives
in `ItemConfig`.  An absent field is `Option.none` (the code's
`NoValue` sentinel); fields the code coerces with `bool(...)` and
defaults to `False` are plain `Bool`.  The Python field `section` is
spelled `section_` because `section` is a Lean keyword; regexp-valued
fields hold the compiled pattern (`Rx`). -/
structure ItemFields where
  kind : Option String := Option.none
  name : Option String := Option.none
  disabled : Bool := false
  section_ : Option String := Option.none
  key : Option String := Option.none
  type : Option String := Option.none
  value : Option PyVal := Option.none
  default : Option PyVal := Option.none
  default_from_file : Option String := Option.none
  force : Bool := false
  multivalue : Bool := false
  required : Bool := false
  range : Option String := Option.none
  regexp : Option Rx := Option.none
  values : Option (List PyVal) := Option.none
  values_from_directory : Option String := Option.none
  values_from_file : Option String := Option.none
  values_regexp : Option Rx := Option.none
  values_sort : Option String := Option.none
  parameterize : Option String := Option.none
  match_key : Option String := Option.none
  match_values : Option (List PyVal) := Option.none
  match_not_values : Option (List PyVal) := Option.none
  reset_keys : Option (List String) := Option.none
  reset_key_regexp : Option Rx := Option.none
  path : Option String := Option.none
  title : Option String := Option.none
  text : Option String := Option.none
deriving Repr

/-- An item node: scalar fields plus the optional nested `interview`
subtree (present on branch nodes). -/
inductive ItemConfig where
  | mk (f : ItemFields) (interview : Option (List ItemConfig))
deriving Repr

/-- The scalar fields of a node. -/
def ItemConfig.f : ItemConfig → ItemFields
  | .mk f _ => f

/-- The nested `interview` subtree of a node. -/
def ItemConfig.interview : ItemConfig → Option (List ItemConfig)
  | .mk _ itv => itv

/-- The external world as the code sees it: file contents, the first
`os.walk` triple of a directory, and YAML loading for includes
(`Option.none` models an unreadable/missing source, i.e. a raised
IOError / an empty `os.walk`). -/
structure Env where
  readFile : String → Option String
  listDir : String → Option (List String × List String)
  load : String → Option (List ItemConfig)
  pathExists : String → Bool

/-- An environment with no readable files (sufficient for documents
that use no file-based fields). -/
def env0 : Env :=
  ⟨fun _ => Option.none, fun _ => Option.none, fun _ => Option.none, fun _ => false⟩

/-- `int(...)` applied to a settings lookup result: a wrapped dict
(`.node`) raises TypeError. -/
def pyValToInt : Val → Option Int
  | .leaf v => pyToInt v
  | .node _ => Option.none

/-- `Item.get_fqkey` (interview.py 251-282): resolve the effective key
(explicit argument or the node's own `key`; `None` raises when the
membership test `"." not in key` runs), prefix `section.` when the key
has no dot and a section is declared, and append `.{count}` where
`count = int(settings.get(parameterize, 0))` when `parameterize` is
declared. -/
def ItemGetFqkey (f : ItemFields) (settings : Assoc) (key? : Option String) :
    Except String String :=
  let sec := f.section_
  let key := match key? with
    | Option.none => f.key
    | some k => some k
  match key with
  | Option.none => .error "TypeError: argument of type NoneType is not iterable"
  | some k =>
    let k1 := if ¬ strHasChar '.' k then
        match sec with
        | some s => s ++ "." ++ k
        | Option.none => k
      else k
    match f.parameterize with
    | Option.none => .ok k1
    | some counterKey =>
      match pyValToInt (storeGetD settings counterKey (.leaf (.int 0))) with
      | some n => .ok (k1 ++ "." ++ toString n)
      | Option.none => .error "TypeError: int() on settings value"

/-- The local `get_fqkey` defined inside `Interview.next`
(interview.py 449-482), translated independently of `Item.get_fqkey`:
same key resolution, same section prefixing, same
`int(self.settings.get(counter_key, 0))` counter suffix. -/
def walkGetFqkey (f : ItemFields) (settings : Assoc) (key? : Option String) :
    Except String String :=
  let sec := f.section_
  let key := match key? with
    | Option.none => f.key
    | some k => some k
  match key with
  | Option.none => .error "TypeError: argument of type NoneType is not iterable"
  | some k =>
    let k1 := if ¬ strHasChar '.' k then
        match sec with
        | some s => s ++ "." ++ k
        | Option.none => k
      else k
    match f.parameterize with
    | Option.none => .ok k1
    | some counterKey =>
      match pyValToInt (storeGetD settings counterKey (.leaf (.int 0))) with
      | some n => .ok (k1 ++ "." ++ toString n)
      | Option.none => .error "TypeError: int() on settings value"

/-! ## `Item.__init__` dynamic field resolution (interview.py 192-244) -/

/-- Insert into a list sorted by `le` (used to model Python
`sorted`). -/
def insertLe (le : PyVal → PyVal → Bool) (x : PyVal) : List PyVal → List PyVal
  | [] => [x]
  | y :: ys => if le x y then x :: y :: ys else y :: insertLe le x ys

/-- Insertion sort by `le`. -/
def sortLe (le : PyVal → PyVal → Bool) : List PyVal → List PyVal
  | [] => []
  | x :: xs => insertLe le x (sortLe le xs)

/-- Python `sorted(values)`: an all-numeric list sorts by value, an
all-string list sorts lexicographically; a mixed (or otherwise
unorderable) list raises TypeError.  The interview's value sets are
numeric or string lists. -/
def pySortVals (vs : List PyVal) : Except String (List PyVal) :=
  if vs.all (fun v => v.toRat?.isSome) then
    .ok (sortLe (fun a b =>
      match a.toRat?, b.toRat? with
      | some x, some y => decide (x ≤ y)
      | _, _ => true) vs)
  else if vs.all (fun v => match v with | .str _ => true | _ => false) then
    .ok (sortLe (fun a b =>
      match a, b with
      | .str x, .str y => decide (x < y) || decide (x = y)
      | _, _ => true) vs)
  else .error "TypeError: unorderable values"

/-- Convert a resolved value set when the declared type is numeric
(`[cls(v) for v in config2 values]`, interview.py 230-236). -/
def convertVals (conv : PyVal → Option PyVal) : List PyVal → Except String (List PyVal)
  | [] => .ok []
  | v :: rest =>
    match conv v with
    | some w => (convertVals conv rest).map (w :: ·)
    | Option.none => .error "ValueError: could not convert value"

/-- Filter the value set by `values_regexp` (interview.py 223-226);
`cre.match` on a non-string element raises TypeError. -/
def filterValsRx (rx : Rx) : List PyVal → Except String (List PyVal)
  | [] => .ok []
  | .str s :: rest =>
    (filterValsRx rx rest).map (fun r => if rxMatch rx s then .str s :: r else r)
  | _ :: _ => .error "TypeError: expected string"

/-- `Item.__init__` (interview.py 192-244): runtime resolution of
`default_from_file`, `values_from_directory`, `values_from_file`,
`values_regexp`, numeric conversion of the value set, and
`values_sort`.  The source's `desc` arm calls the undefined name
`reverse`, so it raises NameError. -/
def itemInit (env : Env) (f : ItemFields) : Except String ItemFields := do
  -- runtime "default" setting (200-201)
  let f ← match f.default_from_file with
    | some p =>
      match env.readFile p with
      | some content => pure { f with default := some (.str content) }
      | Option.none => throw "IOError: default_from_file unreadable"
    | Option.none => pure f
  -- runtime "values" settings (204-216)
  let f ← match f.values_from_directory with
    | some spec =>
      match splitFirstChar ':' spec with
      | Option.none => throw "ValueError: not enough values to unpack"
      | some (namekind, p) =>
        match env.listDir p with
        | Option.none =>
          -- os.walk yielded nothing: dirnames/filenames stay unbound
          throw "NameError: name dirnames is not defined"
        | some (dirnames, filenames) =>
          if namekind = "dir" then
            pure { f with values := some (dirnames.map PyVal.str) }
          else if namekind = "file" then
            pure { f with values := some (filenames.map PyVal.str) }
          else if namekind = "dir+file" then
            pure { f with values := some ((dirnames ++ filenames).map PyVal.str) }
          else
            -- no branch assigned `names`
            throw "NameError: name names is not defined"
    | Option.none => pure f
  -- (218-220)
  let f ← match f.values_from_file with
    | some p =>
      match env.readFile p with
      | some content =>
        pure { f with
          values := some (((splitChar '\n' content).filter (· ≠ "")).map PyVal.str) }
      | Option.none => throw "IOError: values_from_file unreadable"
    | Option.none => pure f
  -- filter values (223-226)
  let f ← match f.values_regexp, f.values with
    | some rx, some vs => (filterValsRx rx vs).map (fun vs2 => { f with values := some vs2 })
    | _, _ => pure f
  -- process values (229-244)
  match f.values with
  | Option.none => pure f
  | some vs => do
    -- `config["type"]` raises when `type` is absent
    let typ ← match f.type with
      | some t => pure t
      | Option.none => throw "KeyError: type"
    let vs ← if typ = "int" then convertVals (fun v => (pyToInt v).map PyVal.int) vs
      else if typ = "float" then convertVals (fun v => (pyToFloat v).map PyVal.float) vs
      else pure vs
    let vs ← match f.values_sort with
      | some "asc" => pySortVals vs
      | some "desc" =>
        -- source line 244 calls `reverse(config["values"])`; `reverse`
        -- is not defined anywhere, so this raises at item construction
        throw "NameError: name reverse is not defined"
      | _ => pure vs
    pure { f with values := some vs }

/-! ## `Item.set` (interview.py 284-376) -/

/-- Split `range` as the source does: `lo, hi = rng.split("-", 1)`,
then `hi, step = hi.split(":", 1)` when a colon is present
(`Option.none` third component = no colon, so `step` is the int 1). -/
def rangeSplit (rng : String) : Option (String × String × Option String) :=
  (splitFirstChar '-' rng).map (fun p =>
    match splitFirstChar ':' p.2 with
    | some (hi, st) => (p.1, hi, some st)
    | Option.none => (p.1, p.2, Option.none))

/-- Parse an integer range: `int(lo)`, `int(hi)`,
`int(step) if step != "" else 1` (the no-colon case already holds the
int 1). -/
def parseRangeInt (rng : String) : Option (Int × Int × Int) :=
  (rangeSplit rng).bind fun t =>
    (strToInt? t.1).bind fun lo =>
      (strToInt? t.2.1).bind fun hi =>
        match t.2.2 with
        | Option.none => some (lo, hi, 1)
        | some "" => some (lo, hi, 1)
        | some s => (strToInt? s).map (fun st => (lo, hi, st))

/-- Parse a float range (same shape with `float(...)`). -/
def parseRangeFloat (rng : String) : Option (Rat × Rat × Rat) :=
  (rangeSplit rng).bind fun t =>
    (parseDecimal t.1).bind fun lo =>
      (parseDecimal t.2.1).bind fun hi =>
        match t.2.2 with
        | Option.none => some (lo, hi, 1)
        | some "" => some (lo, hi, 1)
        | some s => (parseDecimal s).map (fun st => (lo, hi, st))

/-- `v < lo or v > hi or (v - lo) % step != 0` for each element
(interview.py 369-371), integer case.  The bound tests run first, so a
zero step only raises once both bounds pass. -/
def checkRangeInt (lo hi step : Int) : List PyVal → Except String Unit
  | [] => .ok ()
  | .int n :: rest =>
    if n < lo ∨ hi < n then .error "ValueError: bad value"
    else if step = 0 then .error "ZeroDivisionError"
    else if pyMod (n - lo) step ≠ 0 then .error "ValueError: bad value"
    else checkRangeInt lo hi step rest
  | _ :: _ => .error "TypeError: comparison"

/-- Python float `%` (floored). -/
def qFmod (a b : Rat) : Rat := a - b * ((a / b).floor : Rat)

/-- Element check, float case. -/
def checkRangeFloat (lo hi step : Rat) : List PyVal → Except String Unit
  | [] => .ok ()
  | .float q :: rest =>
    if q < lo ∨ hi < q then .error "ValueError: bad value"
    else if step = 0 then .error "ZeroDivisionError"
    else if qFmod (q - lo) step ≠ 0 then .error "ValueError: bad value"
    else checkRangeFloat lo hi step rest
  | _ :: _ => .error "TypeError: comparison"

/-- Enumerated-values membership check (interview.py 339-342). -/
def checkValues (vs : List PyVal) : List PyVal → Except String Unit
  | [] => .ok ()
  | v :: rest =>
    if pyMem v vs then checkValues vs rest else .error "ValueError: bad value"

/-- Regexp check (interview.py 344-348); `cre.match` on a non-string
raises TypeError. -/
def checkRegexp (rx : Rx) : List PyVal → Except String Unit
  | [] => .ok ()
  | .str s :: rest =>
    if rxMatch rx s then checkRegexp rx rest else .error "ValueError: bad value"
  | _ :: _ => .error "TypeError: expected string"

/-- `Item.set(value)` (interview.py 284-376).  `s` is the interview's
settings dict; `f` carries the item's configuration, whose `key` field
is also `self.key` (walk constructs every `Item` with
`item_config.get("key", NoValue)`, interview.py 497/502).  Returns the
updated settings, or the raised error.

Steps, in source order: `typ = self.config["type"]` (KeyError when
absent); the `notice` special case; default substitution when the
value is `None`/`""`; type coercion (`bool`/`csv`/`float`/`int`/`str`/
`ssv`; the source splits these over two mutually exclusive `if`
chains); listification (a list value demands `multivalue`); the
first-applicable validation of required / values / regexp / range; and
the commit `self.interview.settings[key] = value`, which raises
AttributeError when `self.key` is the `NoValue` sentinel and KeyError
on a dotted-path conflict.  For a `range` with a non-numeric declared
type the source leaves `lo`/`hi` unconverted strings, so every element
comparison path raises (ValueError or TypeError) and only an empty
element list passes. -/
def ItemSet (s : Assoc) (f : ItemFields) (value0 : PyVal) : Except String Assoc := do
  let typ ← match f.type with
    | some t => pure t
    | Option.none => throw "KeyError: type"
  -- ignore/reset value for special case (294-298)
  let value ← if f.kind = some "notice" then
      match f.default with
      | Option.none => throw "BadItem: notice requires a default"
      | some _ => pure PyVal.none
    else pure value0
  -- get default (300-303): `value in [None, ""]`
  let value := match f.default with
    | some d =>
      (match value with
       | .none => d
       | .str "" => d
       | v => v)
    | Option.none => value
  -- convert value (306-318)
  let value ← (
    if typ = "bool" then pure (PyVal.bool (pyTruthy value))
    else if typ = "csv" then
      match value with
      | .str str => pure (PyVal.list ((splitChar ',' str).map PyVal.str))
      | _ => throw "AttributeError: split"
    else if typ = "float" then
      match pyToFloat value with
      | some q => pure (PyVal.float q)
      | Option.none => throw "ValueError: float()"
    else if typ = "int" then
      match pyToInt value with
      | some n => pure (PyVal.int n)
      | Option.none => throw "ValueError: int()"
    else if typ = "str" then pure value
    else if typ = "ssv" then
      match value with
      | .str str => pure (PyVal.list ((pySplitWs str).map PyVal.str))
      | _ => throw "AttributeError: split"
    else pure value)
  -- listify value if needed (327-333)
  let xvalues ← match value with
    | .list xs => if ¬ f.multivalue then throw "ValueError: bad value" else pure xs
    | v => pure [v]
  -- validate value (335-371): first applicable rule wins
  if f.required ∧ xvalues.isEmpty then throw "ValueError: required value"
  else match f.values with
  | some vs => checkValues vs xvalues
  | Option.none =>
    match f.regexp with
    | some rx => checkRegexp rx xvalues
    | Option.none =>
      match f.range with
      | some rng =>
        if typ = "int" then
          match parseRangeInt rng with
          | some t => checkRangeInt t.1 t.2.1 t.2.2 xvalues
          | Option.none => throw "ValueError: range"
        else if typ = "float" then
          match parseRangeFloat rng with
          | some t => checkRangeFloat t.1 t.2.1 t.2.2 xvalues
          | Option.none => throw "ValueError: range"
        else if xvalues.isEmpty then pure ()
        else throw "TypeError: comparison with unconverted bound"
      | Option.none => pure ()
  -- update interview settings (374)
  match f.key with
  | Option.none => throw "AttributeError: NoValue object has no split"
  | some k =>
    match storeSet s k value with
    | some s2 => pure s2
    | Option.none => throw "KeyError"

/-! ## The traversal engine: `Interview.next` (interview.py 446-637) -/

/-- Outcome of one `walk(config, walkpath)` call: an interactive item
returned to the caller (its walkpath, its `self.key` — the raw
`item_config.get("key", NoValue)` captured at construction — and its
post-construction fields), the `None` return, a raised `RetryWalk`, or
any other raised exception. -/
inductive WalkOut where
  | found (wp : List Nat) (selfKey : Option String) (f : ItemFields)
  | finished
  | retry
  | err (e : String)
deriving Repr

/-- `item_cls_lookup` membership (interview.py 407-415). -/
def knownKind (k : String) : Bool :=
  k = "branch" || k = "include" || k = "notice" || k = "question" ||
  k = "reset" || k = "set" || k = "update"

/-- `Interview._load` (interview.py 434-439): a bare path (no `/`) is
resolved against `home` when one is set. -/
def interviewLoad (env : Env) (home : Option String) (path : String) :
    Option (List ItemConfig) :=
  let p := if ¬ strHasChar '/' path then
      match home with
      | some h => h ++ "/" ++ path
      | Option.none => path
    else path
  env.load p

/-- `match_value (not) in match_values` where `match_value` is
`settings.get(fqk, NoValue)`: the `NoValue` sentinel and a wrapped
dict compare unequal to every configuration value. -/
def memOV : Option Val → List PyVal → Bool
  | Option.none, _ => false
  | some (.node _), _ => false
  | some (.leaf v), vs => pyMem v vs

/-- The `reset_keys` deletion loop (interview.py 533-537): resolve each
key through `item.get_fqkey` and `del settings[...]` when present.
`DottedDictWrapper` defines no `__delitem__`, so the first key that is
actually present raises TypeError; keys not present are skipped by the
`in settings` pre-check. -/
def resetByKeys (f : ItemFields) (s : Assoc) : List String → Except String Unit
  | [] => .ok ()
  | rk :: rest => do
    match ItemGetFqkey f s (some rk) with
    | .error e => throw e
    | .ok fq =>
      if (storeFind s fq).isSome then
        throw "TypeError: DottedDictWrapper does not support item deletion"
      else resetByKeys f s rest

/-- The `reset_key_regexp` deletion loop (interview.py 539-543): match
the pattern against a snapshot of `settings.keys()`; the first match
executes `del settings[key]`, which raises TypeError
(no `__delitem__`). -/
def resetByRx (rx : Rx) (s : Assoc) : Except String Unit :=
  if (storeKeys s).any (rxMatch rx) then
    .error "TypeError: DottedDictWrapper does not support item deletion"
  else .ok ()

/-- The `walk` loop over a sibling list (interview.py 490: `for i,
item_config in enumerate(config)`), parametrized by the handler `step`
for one loop body.  A step returning `Option.none` falls through to
the next sibling; `some out` returns from the walk or propagates an
exception/`RetryWalk`.  Returns the outcome together with the
(possibly rewritten) configuration list and the mutated settings. -/
def walkSeq (step : ItemConfig → Assoc → List Nat → Nat → Option WalkOut × ItemConfig × Assoc) :
    List ItemConfig → Assoc → List Nat → Nat → WalkOut × List ItemConfig × Assoc
  | [], s, _, _ => (.finished, [], s)
  | c :: rest, s, wp, i =>
    match step c s wp i with
    | (some out, c2, s2) => (out, c2 :: rest, s2)
    | (Option.none, c2, s2) =>
      let r := walkSeq step rest s2 wp (i + 1)
      (r.1, c2 :: r.2.1, r.2.2)

/-- One iteration of the `walk` loop body (interview.py 490-624) on a
single node; `prev` performs the recursive `walk(interview, walkpath +
[i])` call into a branch subtree (it is the one-level-shallower step
function, see `walkStepF`).  `Option.none` as first component means
the loop falls through to the next sibling (`continue` / end of
body); `some out` means the walk returns or an exception propagates.

Source order honoured: the `disabled` skip; the `item_cls_lookup`
check (`unknown kind` for a missing or unrecognized `kind`); `Item`
construction (running `Item.__init__`'s dynamic field resolution);
then the kind dispatch.  For
`kind in ["branch","notice","question","set","reset"]`: the branch
match test (a failed match skips the node), the reset deletions, the
"set value as/if needed" block — committing `value` for
branch/reset/set when the node has a `key` and its FQK is absent or
`force` is set, raising `RetryWalk` for reset/set, returning the item
for notice/question — and finally the branch recursion into its
`interview` subtree.  Note `interview = item.get("interview",
NoValue); if interview:` — an absent subtree leaves the truthy
`NoValue` class, and iterating it raises TypeError; an empty list is
falsy and is skipped.  The `elif kind == "reset"` arm at lines 588-613
is unreachable (see `walkResetDeadArm`). -/
def walkStepBody (env : Env) (home : Option String)
    (prev : ItemConfig → Assoc → List Nat → Nat → Option WalkOut × ItemConfig × Assoc) :
    ItemConfig → Assoc → List Nat → Nat → Option WalkOut × ItemConfig × Assoc
  | .mk f itv, s, wp, i =>
    if f.disabled then (Option.none, .mk f itv, s)
    else
      let key0 := f.key
      match f.kind with
      | Option.none => (some (.err "Exception: unknown kind"), .mk f itv, s)
      | some kind =>
        if ¬ knownKind kind then (some (.err "Exception: unknown kind"), .mk f itv, s)
        else
          match itemInit env f with
          | .error e => (some (.err e), .mk f itv, s)
          | .ok f2 =>
            let cfg2 : ItemConfig := .mk f2 itv
            if kind = "branch" || kind = "notice" || kind = "question" ||
               kind = "set" || kind = "reset" then
              -- special case for "branch" (510-526)
              let branchSkip : Except String Bool :=
                if kind = "branch" then
                  match f2.match_key with
                  | some mk0 =>
                    match ItemGetFqkey f2 s (some mk0) with
                    | .error e => .error e
                    | .ok mkF =>
                      let mv := storeFind s mkF
                      if (match f2.match_values with
                          | Option.none => true
                          | some vs => ¬ memOV mv vs) &&
                         (match f2.match_not_values with
                          | Option.none => true
                          | some vs => memOV mv vs) then
                        .ok true
                      else .ok false
                  | Option.none => .ok false
                else .ok false
              match branchSkip with
              | .error e => (some (.err e), cfg2, s)
              | .ok true => (Option.none, cfg2, s)
              | .ok false =>
                -- special case for "reset" (528-545)
                let resetStep : Except String Unit :=
                  if kind = "reset" then
                    match f2.reset_keys with
                    | some rks => resetByKeys f2 s rks
                    | Option.none =>
                      match f2.reset_key_regexp with
                      | some rx => resetByRx rx s
                      | Option.none => .error "ValueError: bad item"
                  else .ok ()
                match resetStep with
                | .error e => (some (.err e), cfg2, s)
                | .ok () =>
                  -- set value as/if needed (547-562)
                  let setBlock : Except String (Option WalkOut × Assoc) :=
                    match f2.key with
                    | some _ => do
                      match ItemGetFqkey f2 s Option.none with
                      | .error e => throw e
                      | .ok fq =>
                        let curr := storeFind s fq
                        if curr.isNone || f2.force then
                          if kind = "branch" || kind = "reset" || kind = "set" then
                            match ItemSet s f2 (f2.value.getD PyVal.none) with
                            | .error e => throw e
                            | .ok s2 =>
                              if kind = "reset" || kind = "set" then
                                pure (some WalkOut.retry, s2)
                              else pure (Option.none, s2)
                          else
                            -- notice / question: return the item
                            pure (some (WalkOut.found wp key0 f2), s)
                        else pure (Option.none, s)
                    | Option.none => pure (Option.none, s)
                  match setBlock with
                  | .error e => (some (.err e), cfg2, s)
                  | .ok (some out, s2) => (some out, cfg2, s2)
                  | .ok (Option.none, s2) =>
                    -- handle branch match now (564-572)
                    if kind = "branch" then
                      match itv with
                      | Option.none =>
                        (some (.err "TypeError: NoValue is not iterable"), .mk f2 itv, s2)
                      | some [] => (Option.none, .mk f2 (some []), s2)
                      | some sub =>
                        match walkSeq prev sub s2 (wp ++ [i]) 0 with
                        | (.found wq k3 f3, sub2, s3) =>
                          (some (.found wq k3 f3), .mk f2 (some sub2), s3)
                        | (.finished, sub2, s3) => (Option.none, .mk f2 (some sub2), s3)
                        | (.retry, sub2, s3) => (some .retry, .mk f2 (some sub2), s3)
                        | (.err e, sub2, s3) => (some (.err e), .mk f2 (some sub2), s3)
                    else (Option.none, cfg2, s2)
            else if kind = "include" then
              -- replace with branch and included content (574-586)
              match f2.path with
              | some p =>
                match interviewLoad env home p with
                | some sub =>
                  (some .retry,
                   .mk { kind := some "branch", name := some ("included-" ++ p) } (some sub),
                   s)
                | Option.none => (some (.err "IOError: include load failed"), cfg2, s)
              | Option.none => (Option.none, cfg2, s)
            else if kind = "update" then
              -- numeric accumulator (615-619)
              match pyToInt (f2.value.getD (PyVal.int 1)) with
              | Option.none => (some (.err "ValueError: int(value)"), cfg2, s)
              | some v =>
                match f2.key with
                | Option.none =>
                  -- settings.get(None, 0) calls None.split(".")
                  (some (.err "AttributeError: NoneType has no split"), cfg2, s)
                | some k =>
                  match pyValToInt (storeGetD s k (.leaf (.int 0))) with
                  | Option.none => (some (.err "TypeError: int() on settings value"), cfg2, s)
                  | some count =>
                    match ItemSet s f2 (.int (count + v)) with
                    | .error e => (some (.err e), cfg2, s)
                    | .ok s2 => (Option.none, cfg2, s2)
            else
              -- interview.py 621-624; unreachable: every recognized
              -- kind is handled above
              (some (.err "Exception: invalid item"), cfg2, s)

/-- The loop-body handler at nesting depth `fuel`: branch subtrees are
walked with the handler one level shallower.  Depth 0 models Python's
own `RecursionError` guard; every claim below runs with ample
depth. -/
def walkStepF (env : Env) (home : Option String) :
    Nat → ItemConfig → Assoc → List Nat → Nat → Option WalkOut × ItemConfig × Assoc
  | 0 => fun cfg s _ _ =>
      (some (.err "RecursionError: maximum recursion depth exceeded"), cfg, s)
  | n + 1 => walkStepBody env home (walkStepF env home n)

/-- `walk(config, [])` from the root (interview.py 635), for documents
nested at most `fuel` branches deep. -/
def walkF (env : Env) (home : Option String) (fuel : Nat)
    (cfg : List ItemConfig) (s : Assoc) : WalkOut × List ItemConfig × Assoc :=
  walkSeq (walkStepF env home fuel) cfg s [] 0

/-- The dead `elif kind == "reset"` arm (interview.py 588-613).  It is
unreachable in `walk`: `"reset"` is listed in the first dispatch arm
(line 507), which shadows it.  Embedded for reference because it is
the behaviour the documentation describes: deletions, an optional
`key`/`value` commit, and an unconditional `RetryWalk`. -/
def walkResetDeadArm (f : ItemFields) (s : Assoc) : WalkOut × Assoc :=
  let resetStep : Except String Unit :=
    match f.reset_keys with
    | some rks => resetByKeys f s rks
    | Option.none =>
      match f.reset_key_regexp with
      | some rx => resetByRx rx s
      | Option.none => .error "ValueError: bad item"
  match resetStep with
  | .error e => (.err e, s)
  | .ok () =>
    match f.key with
    | some _ =>
      match ItemSet s f (f.value.getD PyVal.none) with
      | .error e => (.err e, s)
      | .ok s2 => (.retry, s2)
    | Option.none => (.retry, s)

/-- Outcome of `Interview.next()`. -/
inductive NextOut where
  | item (wp : List Nat) (selfKey : Option String) (f : ItemFields)
  | finished
  | fail (e : String)
  | fuelOut
deriving Repr

/-- `Interview.next` (interview.py 628-637): run `walk` from the root,
looping while it raises `RetryWalk`.  The loop has no bound in the
source (a cyclically authored document loops forever), so the
embedding takes a retry budget `fuel` (and the nesting `depth` of
`walkF`); claims are evaluated with enough fuel for their
documents. -/
def nextFuel (env : Env) (home : Option String) (depth : Nat) :
    Nat → List ItemConfig → Assoc → NextOut × List ItemConfig × Assoc
  | 0, cfg, s => (.fuelOut, cfg, s)
  | n + 1, cfg, s =>
    match walkF env home depth cfg s with
    | (.retry, cfg2, s2) => nextFuel env home depth n cfg2 s2
    | (.found wp k f, cfg2, s2) => (.item wp k f, cfg2, s2)
    | (.finished, cfg2, s2) => (.finished, cfg2, s2)
    | (.err e, cfg2, s2) => (.fail e, cfg2, s2)

/-! ## `Interview.check` (interview.py 639-682) -/

/-- The nested validation function `walk` that `check` defines
(interview.py 644-682), embedded for reference: raises on a node with
no `kind`; for an `include`, raises on a missing `path` or a
nonexistent file and otherwise rewrites the node in place; for a
`branch` it calls `walk(item_config, walkpath + [i])` — passing the
*mapping* rather than its `interview` list, so a top-level call (where
`walkpath` defaults to `None`) raises TypeError on `None + [i]` and a
nested call raises AttributeError when the iteration hands it the
mapping's string keys; for `question`/`set` it requires `key`,
`title`, `text`.  Unrecognized kinds pass silently.  Only its raised
error (if any) is modelled; the include rewrite's mutation does not
affect which error the same run raises. -/
def checkWalk (env : Env) (home : Option String) :
    List ItemConfig → Option (List Nat) → Nat → Except String Unit
  | [], _, _ => .ok ()
  | .mk f _ :: rest, wp, i => do
    match f.kind with
    | Option.none => throw "BadItem: kind missing from item"
    | some kind => do
      -- do not move!  replace include *before* branch (652-672); the
      -- local `kind` is not refreshed, so the rewritten node is not
      -- recursed into by the `branch` test below
      if kind = "include" then
        match f.path with
        | Option.none => throw "BadItem: path missing for include item"
        | some p =>
          if ¬ env.pathExists p then throw "BadItem: file not found for include item"
          else
            match interviewLoad env home p with
            | some _ => pure ()
            | Option.none => throw "IOError: include load failed"
      else pure ()
      if kind = "branch" then
        match wp with
        | Option.none => throw "TypeError: unsupported operand NoneType + list"
        | some _ => throw "AttributeError: str object has no attribute get"
      else if kind = "question" || kind = "set" then
        if f.key.isNone then throw "BadItem: key missing for question/set item"
        else if f.title.isNone then throw "BadItem: title missing for question/set item"
        else if f.text.isNone then throw "BadItem: text missing for question/set item"
        else checkWalk env home rest wp (i + 1)
      else checkWalk env home rest wp (i + 1)

/-- `Interview.check()` (interview.py 639-682): the method's entire
body is the *definition* of the nested `walk` above — it is never
invoked — so `check` performs no validation and returns `None` on
every document. -/
def InterviewCheck (_config : List ItemConfig) : Except String Unit := .ok ()

/-! ## Configurations and helper definitions used by the claims -/

/-- The fields of a `question` node declaring `section: s`,
`key: k`, `type: str` (claim C1). -/
def c1Fields : ItemFields :=
  { kind := some "question", section_ := some "s", key := some "k", type := some "str" }

/-- The C1 node itself. -/
def c1Config : ItemConfig := .mk c1Fields Option.none

/-- A store holding `temp.a = 1` and `keep = 2` (claim C2). -/
def c2Store : Assoc :=
  Assoc.cons "temp" (.node (Assoc.cons "a" (.leaf (.int 1)) .nil))
    (Assoc.cons "keep" (.leaf (.int 2)) .nil)

/-- The reset node with `reset_key_regexp: "^temp\\..*"` (claim C2). -/
def c2Config : ItemConfig :=
  .mk { kind := some "reset", reset_key_regexp := some rxTempAny } Option.none

/-- A reset node with `reset_keys: [x]` and no `key` of its own
(claim C3). -/
def c3ConfigNoKey : ItemConfig :=
  .mk { kind := some "reset", reset_keys := some ["x"] } Option.none

/-- Reset-node fields with `reset_keys: [rk]`, an optional own `key`,
and a `str`-typed `value` (claim C3). -/
def resetFields (rk : String) (key? : Option String) (v : String) : ItemFields :=
  { kind := some "reset", reset_keys := some [rk], key := key?,
    type := some "str", value := some (.str v) }

/-- The store `{a: {b: 1}}` produced by `set("a.b", 1)` on an empty
store (claim C5). -/
def c5Store : Assoc :=
  Assoc.cons "a" (.node (Assoc.cons "b" (.leaf (.int 1)) .nil)) .nil

/-- The nested-dict chain a fresh write creates below its first
segment: `chainVal [b, c] v = {b: {c: v}}` (claim C6). -/
def chainVal (segs : List String) (v : PyVal) : Val :=
  segs.foldr (fun k acc => .node (.cons k acc .nil)) (.leaf v)

/-- Dot-join the tail segments onto a first segment, the way `_walk`
accumulates its prefix (claim C6). -/
def dotJoin (s0 : String) (rest : List String) : String :=
  rest.foldl (fun a b => a ++ "." ++ b) s0

/-- Question fields with `key: k`, `type: int`, and a `range`
constraint only (claim C7). -/
def c7Fields (k rng : String) : ItemFields :=
  { kind := some "question", key := some k, type := some "int", range := some rng }

/-- Item fields with declared values `[2, 1]`, type `int`, and the
given `values_sort` order (claim C8). -/
def c8Fields (order : String) : ItemFields :=
  { type := some "int", values := some [.int 2, .int 1], values_sort := some order }

/-- An `update` node with `key: c`, `type: int`, `value: v`
(claim C10). -/
def c10Config (v : Int) : ItemConfig :=
  .mk { kind := some "update", key := some "c", type := some "int",
        value := some (.int v) } Option.none

/-! ## Store lemmas (for claims C5 and C6) -/

/-- Writing below a fresh key always succeeds: every missing
intermediate dict is auto-created. -/
theorem setPath_fresh_isSome (v : PyVal) :
    ∀ (segs : List String), segs ≠ [] → (setPath (.node Assoc.nil) segs v).isSome
  | [], h => absurd rfl h
  | [k], _ => by simp [setPath]
  | k :: k2 :: ks, _ => by
    have ih := setPath_fresh_isSome v (k2 :: ks) (by simp)
    rcases Option.isSome_iff_exists.mp ih with ⟨w, hw⟩
    simp [setPath, Assoc.find?, hw]

/-- A successful write into a dict yields a dict. -/
theorem setPath_some_node (v : PyVal) (segs : List String) (d : Assoc) (w : Val)
    (h : setPath (.node d) segs v = some w) : ∃ d2, w = .node d2 := by
  match segs, h with
  | [], h => simp [setPath] at h
  | [k], h =>
    simp [setPath] at h
    exact ⟨_, h.symm⟩
  | k :: k2 :: ks, h =>
    simp only [setPath] at h
    rcases hf : d.find? k with _ | w2 <;> rw [hf] at h
    · obtain ⟨u, _, hu⟩ := Option.map_eq_some'.mp h
      exact ⟨_, hu.symm⟩
    · obtain ⟨u, _, hu⟩ := Option.map_eq_some'.mp h
      exact ⟨_, hu.symm⟩

/-- `__setitem__` succeeds exactly when no proper nonempty prefix of
the path currently resolves to a leaf (non-dict) value. -/
theorem setPath_isSome_iff (v : PyVal) :
    ∀ (segs : List String) (d : Assoc), segs ≠ [] →
      ((setPath (.node d) segs v).isSome ↔
        ¬ ∃ n x, 0 < n ∧ n < segs.length ∧
          findPath (.node d) (segs.take n) = some (.leaf x))
  | [], _, h => absurd rfl h
  | [k], d, _ => by
    simp [setPath]
    intro n x h1 h2
    omega
  | k :: k2 :: ks, d, _ => by
    rcases hf : d.find? k with _ | ⟨x0⟩ | d2
    · -- fresh key: creation always succeeds, no prefix resolves
      have hs := setPath_fresh_isSome v (k2 :: ks) (by simp)
      rcases Option.isSome_iff_exists.mp hs with ⟨w, hw⟩
      simp only [setPath, hf, hw, Option.map_some', Option.isSome_some, true_iff]
      rintro ⟨n, x, hn0, hnl, hfind⟩
      match n, hn0 with
      | n + 1, _ =>
        simp [List.take, findPath, hf] at hfind
    · -- leaf in the way: the write fails, and the prefix [k] holds it
      have hnone : setPath (Val.leaf x0) (k2 :: ks) v = Option.none := by
        cases ks <;> simp [setPath]
      simp only [setPath, hf, hnone, Option.map_none', Option.isSome_none,
        Bool.false_eq_true, false_iff, not_not]
      exact ⟨1, x0, by omega, by simp, by simp [findPath, hf]⟩
    · -- descend into a nested dict: defer to the tail
      have ih := setPath_isSome_iff v (k2 :: ks) d2 (by simp)
      simp only [setPath, hf, Option.isSome_map']
      rw [ih]
      constructor
      · rintro h ⟨n, x, hn0, hnl, hfind⟩
        match n, hn0, hnl, hfind with
        | 1, _, hnl, hfind =>
          simp [List.take, findPath, hf] at hfind
        | m + 2, _, hnl, hfind =>
          simp only [List.take, findPath, hf, Option.bind_some] at hfind
          refine h ⟨m + 1, x, by omega, ?_, hfind⟩
          simp only [List.length_cons] at hnl ⊢
          omega
      · rintro h ⟨n, x, hn0, hnl, hfind⟩
        refine h ⟨n + 1, x, by omega, ?_, ?_⟩
        · simp only [List.length_cons] at hnl ⊢
          omega
        · simp only [List.take, findPath, hf, Option.bind_some]
          exact hfind

/-- Writing the whole fresh suffix builds exactly the nested chain. -/
theorem setPath_nil_chain (v : PyVal) :
    ∀ (segs : List String), segs ≠ [] →
      setPath (.node Assoc.nil) segs v = some (chainVal segs v)
  | [], h => absurd rfl h
  | [k], _ => by simp [setPath, chainVal, Assoc.store]
  | k :: k2 :: ks, _ => by
    have ih := setPath_nil_chain v (k2 :: ks) (by simp)
    simp [setPath, Assoc.find?, ih, chainVal, Assoc.store]

/-- A write whose first segment is fresh stores the chain of the
remaining segments under it. -/
theorem setPath_fresh_chain (v : PyVal) (d : Assoc) (k : String) (rest : List String)
    (hf : d.find? k = Option.none) :
    setPath (.node d) (k :: rest) v = some (.node (d.store k (chainVal rest v))) := by
  cases rest with
  | nil => simp [setPath, chainVal]
  | cons r rs =>
    have h := setPath_nil_chain v (r :: rs) (by simp)
    simp [setPath, hf, h]

/-- Reading back along the chain reaches the stored leaf. -/
theorem findPath_chain (v : PyVal) :
    ∀ (segs : List String), findPath (chainVal segs v) segs = some (.leaf v)
  | [] => rfl
  | k :: ks => by
    simp [chainVal, findPath, Assoc.find?]
    exact findPath_chain v ks

/-- `d[k] = w` makes `k` resolve to `w`. -/
theorem store_find_fresh (w : Val) (k : String) :
    ∀ (d : Assoc), (d.store k w).find? k = some w
  | .nil => by simp [Assoc.store, Assoc.find?]
  | .cons k2 v2 rest => by
    by_cases h : k2 = k
    · simp [Assoc.store, Assoc.find?, h]
    · simp [Assoc.store, Assoc.find?, h, store_find_fresh w k rest]

/-- Storing a fresh key appends its flattened items after the existing
ones (Python dicts append new keys at the end). -/
theorem assocItems_store_fresh (w : Val) (k : String) :
    ∀ (d : Assoc) (pref : String), d.find? k = Option.none →
      assocItems (d.store k w) pref =
        assocItems d pref ++ valItems w (if pref = "" then k else pref ++ "." ++ k)
  | .nil, pref, _ => by simp [Assoc.store, assocItems, valItems]
  | .cons k2 v2 rest, pref, hf => by
    have hne : ¬ k2 = k := by
      intro h
      simp [Assoc.find?, h] at hf
    have hrest : rest.find? k = Option.none := by
      simpa [Assoc.find?, hne] using hf
    simp [Assoc.store, hne, assocItems, assocItems_store_fresh w k rest pref hrest]

/-- `_walk` flattens a fresh chain to the single dot-joined pair. -/
theorem valItems_chain (v : PyVal) :
    ∀ (segs : List String) (p : String), p ≠ "" →
      valItems (chainVal segs v) p = [(dotJoin p segs, v)]
  | [], p, _ => by simp [chainVal, valItems, dotJoin]
  | r :: rs, p, hp => by
    have hp2 : p ++ "." ++ r ≠ "" := by
      intro h
      have h2 : (p ++ "." ++ r).length = 0 := by rw [h]; rfl
      simp [String.length_append] at h2
      exact absurd h2.1.2 (by decide)
    simp only [chainVal, List.foldr_cons, valItems, assocItems, if_neg hp]
    rw [show List.foldr (fun k acc => Val.node (Assoc.cons k acc Assoc.nil))
          (Val.leaf v) rs = chainVal rs v from rfl]
    rw [valItems_chain v rs (p ++ "." ++ r) hp2]
    simp [dotJoin]

/-! ## Claim C9: FQK derivation is call-path independent -/

/-- C9: for every item configuration, settings state and optional
explicit key, the key-derivation routine defined inside the traversal
engine (`get_fqkey` local to `Interview.next`, interview.py 449-482)
and the `Item.get_fqkey` method (interview.py 251-282) produce the
same result — the `[section.]key[.counter]` string, with the section
prefixed only when the effective key lacks a dot and the counter read
from the `parameterize` setting (default 0, coerced to integer). -/
theorem C9_fqkey_call_path_independent
    (f : ItemFields) (settings : Assoc) (key? : Option String) :
    ItemGetFqkey f settings key? = walkGetFqkey f settings key? := rfl

/-! ## Claim C4: `check()` performs no validation -/

/-- C4 (code bug): `Interview.check()` never raises — it returns
normally on *every* document, malformed ones included, because its
body only defines the validation walk and never invokes it.  In
particular the document consisting of a single item with no `kind`
(which the claim says must raise a structural error before any
interaction) passes `check` silently. -/
theorem C4_check_returns_normally_on_every_document :
    InterviewCheck [ItemConfig.mk {} Option.none] = .ok () ∧
    ∀ config, InterviewCheck config = .ok () :=
  ⟨rfl, fun _ => rfl⟩

/-! ## Claim C1: `Item.set` commits under the raw key, not the FQK -/

/-- C1 (code bug): for the question node with `section: s`, `key: k`,
the traversal engine returns the item with `self.key = "k"` (the raw
configuration key captured at `Item` construction, interview.py
497/502), its FQK is `"s.k"`, yet `Item.set` commits the value under
the raw key `"k"` (line 291: `key = self.key`), leaving `"s.k"` — the
key the walk's pending test reads — absent, so the very same walk
still returns the item after its answer was committed. -/
theorem C1_set_commits_under_raw_key_not_fqk :
    (walkF env0 Option.none 1 [c1Config] Assoc.nil).1 =
      WalkOut.found [] (some "k") c1Fields ∧
    ItemGetFqkey c1Fields Assoc.nil Option.none = .ok "s.k" ∧
    ItemSet Assoc.nil c1Fields (.str "v") =
      .ok (Assoc.cons "k" (.leaf (.str "v")) .nil) ∧
    storeFind (Assoc.cons "k" (.leaf (.str "v")) .nil) "s.k" = Option.none ∧
    (walkF env0 Option.none 1 [c1Config]
        (Assoc.cons "k" (.leaf (.str "v")) .nil)).1 =
      WalkOut.found [] (some "k") c1Fields :=
  ⟨rfl, rfl, rfl, rfl, rfl⟩

/-! ## Claim C2: `reset` deletion raises — the store has no delete -/

/-- C2 (code bug): executing the reset node on a store whose key list
is `["temp.a", "keep"]` — where `temp.a` matches the pattern and
`keep` does not — deletes nothing and aborts the walk with TypeError,
because `DottedDictWrapper` defines no `__delitem__` and the walk's
`del settings[key]` (interview.py 543) therefore raises on the first
matching key from the snapshot; the settings come back unchanged,
`temp.a` still present. -/
theorem C2_reset_regexp_raises_instead_of_deleting :
    storeKeys c2Store = ["temp.a", "keep"] ∧
    rxMatch rxTempAny "temp.a" = true ∧
    rxMatch rxTempAny "keep" = false ∧
    walkF env0 Option.none 1 [c2Config] c2Store =
      (.err "TypeError: DottedDictWrapper does not support item deletion",
       [c2Config], c2Store) :=
  ⟨rfl, rfl, rfl, rfl⟩

/-! ## Claim C3: a reset node does not always raise the restart -/

/-- C3 counterexample: processing the keyless reset node on an empty
store (its deletions find nothing, so nothing raises) does *not* raise
the whole-walk restart — the walk simply completes, refuting "always
triggers a whole-walk restart … with or without its own `key`".  The
restart sits inside the `if "key" in item_config` block (interview.py
548-559), so it is reached only through a key commit. -/
theorem C3_keyless_reset_does_not_restart :
    walkF env0 Option.none 1 [c3ConfigNoKey] Assoc.nil =
      (WalkOut.finished, [c3ConfigNoKey], Assoc.nil) := rfl

/-- C3 amended: a reset node whose deletions find nothing raises the
whole-walk restart exactly when it declares its own `key` and the
commit takes place (here: that key absent from the store), committing
first; a keyless reset — or one whose key is already set, without
`force` — falls through to the next sibling with no restart and the
store untouched. -/
theorem C3_restart_iff_key_commit (s : Assoc) (v : String)
    (hx : storeFind s "x" = Option.none) :
    (storeFind s "y" = Option.none →
      walkStepF env0 Option.none 1 (.mk (resetFields "x" (some "y") v) Option.none)
          s [] 0 =
        (some WalkOut.retry, .mk (resetFields "x" (some "y") v) Option.none,
         s.store "y" (.leaf (.str v)))) ∧
    walkStepF env0 Option.none 1 (.mk (resetFields "x" Option.none v) Option.none)
        s [] 0 =
      (Option.none, .mk (resetFields "x" Option.none v) Option.none, s) ∧
    (∀ w, storeFind s "y" = some w →
      walkStepF env0 Option.none 1 (.mk (resetFields "x" (some "y") v) Option.none)
          s [] 0 =
        (Option.none, .mk (resetFields "x" (some "y") v) Option.none, s)) := by
  refine ⟨fun hy => ?_, ?_, fun w hy => ?_⟩
  · simp [walkStepF, walkStepBody, resetFields, resetByKeys, ItemGetFqkey, itemInit,
      ItemSet, storeSet, hx, hy, knownKind, strHasChar, pyValToInt, storeGetD,
      Pure.pure, Except.pure, Bind.bind, Except.bind, throw, throwThe,
      MonadExceptOf.throw]
    rfl
  · simp [walkStepF, walkStepBody, resetFields, resetByKeys, ItemGetFqkey, itemInit,
      ItemSet, storeSet, hx, knownKind, strHasChar, pyValToInt, storeGetD,
      Pure.pure, Except.pure, Bind.bind, Except.bind, throw, throwThe,
      MonadExceptOf.throw]
  · simp [walkStepF, walkStepBody, resetFields, resetByKeys, ItemGetFqkey, itemInit,
      ItemSet, storeSet, hx, hy, knownKind, strHasChar, pyValToInt, storeGetD,
      Pure.pure, Except.pure, Bind.bind, Except.bind, throw, throwThe,
      MonadExceptOf.throw]

/-- Witness for the amended C3 on the empty store: the keyed reset
commits `y = "z"` and raises the restart. -/
theorem C3_restart_iff_key_commit_witness :
    storeFind Assoc.nil "x" = Option.none ∧
    storeFind Assoc.nil "y" = Option.none ∧
    walkStepF env0 Option.none 1
        (.mk (resetFields "x" (some "y") "z") Option.none) Assoc.nil [] 0 =
      (some WalkOut.retry, .mk (resetFields "x" (some "y") "z") Option.none,
       Assoc.cons "y" (.leaf (.str "z")) .nil) :=
  ⟨rfl, rfl, (C3_restart_iff_key_commit Assoc.nil "z" rfl).1 rfl⟩

/-! ## Claim C5: `set` conflicts exactly on a leaf-valued prefix -/

/-- C5: for every store state and dotted path, the store's `set`
raises (`Option.none`) exactly when some proper nonempty prefix of the
path currently holds a non-mapping (leaf) value; otherwise it
auto-creates the missing intermediate mappings and succeeds. -/
theorem C5_set_fails_iff_leaf_on_proper_prefix
    (d : Assoc) (key : String) (v : PyVal)
    (hne : splitChar '.' key ≠ []) :
    (storeSet d key v).isSome ↔
      ¬ ∃ n x, 0 < n ∧ n < (splitChar '.' key).length ∧
        findPath (.node d) ((splitChar '.' key).take n) = some (.leaf x) := by
  rw [← setPath_isSome_iff v (splitChar '.' key) d hne]
  unfold storeSet
  rcases hsp : setPath (.node d) (splitChar '.' key) v with _ | w
  · simp
  · obtain ⟨d2, rfl⟩ := setPath_some_node v _ d w hsp
    simp

/-- Witness for C5: `set("a.b", 1)` then `set("a.b.c", 2)` fails — the
proper prefix `a.b` holds the leaf `1`. -/
theorem C5_set_fails_iff_leaf_on_proper_prefix_witness :
    splitChar '.' "a.b.c" ≠ [] ∧
    storeSet Assoc.nil "a.b" (.int 1) = some c5Store ∧
    storeSet c5Store "a.b.c" (.int 2) = Option.none := by
  refine ⟨by decide, rfl, ?_⟩
  have h := C5_set_fails_iff_leaf_on_proper_prefix c5Store "a.b.c" (.int 2) (by decide)
  have hc : ∃ n x, 0 < n ∧ n < (splitChar '.' "a.b.c").length ∧
      findPath (.node c5Store) ((splitChar '.' "a.b.c").take n) = some (.leaf x) :=
    ⟨2, .int 1, by decide, by decide, rfl⟩
  exact Option.not_isSome_iff_eq_none.mp (fun hs => (h.mp hs) hc)

/-! ## Claim C6: store round-trip -/

/-- C6: writing through any dotted path whose first segment is fresh
succeeds (creating the nested chain), reading the same path returns
the value just written, and `items()` flattens it back to the same
dotted path.  The hypotheses pin the path's shape: its split, that the
dot-join of the split recovers it (true of every string), and a
nonempty first segment. -/
theorem C6_store_round_trip
    (d : Assoc) (key : String) (v : PyVal) (s0 : String) (rest : List String)
    (hsplit : splitChar '.' key = s0 :: rest)
    (hjoin : dotJoin s0 rest = key)
    (hs0 : s0 ≠ "")
    (hfresh : d.find? s0 = Option.none) :
    storeSet d key v = some (d.store s0 (chainVal rest v)) ∧
    storeFind (d.store s0 (chainVal rest v)) key = some (.leaf v) ∧
    (key, v) ∈ storeItems (d.store s0 (chainVal rest v)) := by
  refine ⟨?_, ?_, ?_⟩
  · unfold storeSet
    rw [hsplit, setPath_fresh_chain v d s0 rest hfresh]
  · unfold storeFind
    rw [hsplit]
    simp only [findPath, store_find_fresh, Option.bind_some]
    exact findPath_chain v rest
  · unfold storeItems
    rw [assocItems_store_fresh _ s0 d "" hfresh]
    have hpp : (if ("" : String) = "" then s0 else "" ++ "." ++ s0) = s0 := if_pos rfl
    rw [hpp, valItems_chain v rest s0 hs0, hjoin]
    simp

/-- Witness for C6: from the empty store, `set("a.b.c", 5)` then
`get("a.b.c") = 5` and `items()` contains `("a.b.c", 5)`. -/
theorem C6_store_round_trip_witness :
    splitChar '.' "a.b.c" = "a" :: ["b", "c"] ∧
    dotJoin "a" ["b", "c"] = "a.b.c" ∧
    storeSet Assoc.nil "a.b.c" (.int 5) =
      some (Assoc.nil.store "a" (chainVal ["b", "c"] (.int 5))) ∧
    storeFind (Assoc.nil.store "a" (chainVal ["b", "c"] (.int 5))) "a.b.c" =
      some (.leaf (.int 5)) ∧
    ("a.b.c", PyVal.int 5) ∈
      storeItems (Assoc.nil.store "a" (chainVal ["b", "c"] (.int 5))) := by
  have h := C6_store_round_trip Assoc.nil "a.b.c" (.int 5) "a" ["b", "c"]
    (by decide) (by decide) (by decide) rfl
  exact ⟨by decide, by decide, h.1, h.2.1, h.2.2⟩

/-! ## Claim C7: integer range validation -/

/-- C7: for an item of type `int` with a `range` constraint and no
required/values/regexp constraints, `Item.set(n)` commits exactly when
`lo ≤ n ≤ hi` and `(n − lo) mod step = 0` (`step` defaults to 1 when
the range string omits it, which `parseRangeInt` encodes), and raises
a bad-value error otherwise. -/
theorem C7_int_range_accepts_iff (s : Assoc) (k rng : String) (lo hi step n : Int)
    (hp : parseRangeInt rng = some (lo, hi, step)) (hstep : step ≠ 0)
    (hsplit : splitChar '.' k = [k]) :
    ItemSet s (c7Fields k rng) (.int n) =
      (if lo ≤ n ∧ n ≤ hi ∧ pyMod (n - lo) step = 0
       then Except.ok (s.store k (.leaf (.int n)))
       else Except.error "ValueError: bad value") := by
  simp [ItemSet, c7Fields, hp, checkRangeInt, storeSet, hsplit, pyToInt, setPath,
    Pure.pure, Except.pure, Bind.bind, Except.bind, throw, throwThe,
    MonadExceptOf.throw, hstep]
  by_cases h1 : n < lo ∨ hi < n
  · rw [if_pos h1, if_neg]
    rintro ⟨ha, hb, -⟩
    omega
  · rw [if_neg h1]
    by_cases h2 : pyMod (n - lo) step = 0
    · rw [if_pos h2, if_pos ⟨by omega, by omega, h2⟩]
    · rw [if_neg h2, if_neg]
      rintro ⟨-, -, hc⟩
      exact h2 hc

/-- Witness for C7 with `range="1-10:2"`: 3 is accepted and committed,
2 is rejected. -/
theorem C7_int_range_accepts_iff_witness :
    parseRangeInt "1-10:2" = some (1, 10, 2) ∧ (2 : Int) ≠ 0 ∧
    splitChar '.' "k" = ["k"] ∧
    ItemSet Assoc.nil (c7Fields "k" "1-10:2") (.int 3) =
      Except.ok (Assoc.cons "k" (.leaf (.int 3)) .nil) ∧
    ItemSet Assoc.nil (c7Fields "k" "1-10:2") (.int 2) =
      Except.error "ValueError: bad value" := by
  refine ⟨by decide, by decide, by decide, ?_, ?_⟩
  · rw [C7_int_range_accepts_iff Assoc.nil "k" "1-10:2" 1 10 2 3
      (by decide) (by decide) (by decide)]
    rw [if_pos (by decide)]
    rfl
  · rw [C7_int_range_accepts_iff Assoc.nil "k" "1-10:2" 1 10 2 2
      (by decide) (by decide) (by decide)]
    rw [if_neg (by decide)]

/-! ## Claim C8: `values_sort` — `asc` sorts, `desc` raises -/

/-- C8 (code bug): at item construction the resolved value set is
sorted ascending for `values_sort: asc`, but `values_sort: desc`
raises NameError — interview.py 244 calls `reverse(config["values"])`
and no `reverse` is defined anywhere (and reversing would not be a
descending sort in any case); no descending ordering ever happens. -/
theorem C8_values_sort_desc_raises_nameerror :
    itemInit env0 (c8Fields "asc") =
      .ok { c8Fields "asc" with values := some [.int 1, .int 2] } ∧
    itemInit env0 (c8Fields "desc") =
      .error "NameError: name reverse is not defined" :=
  ⟨rfl, rfl⟩

/-! ## Claim C10: repeated scans re-execute `update` nodes -/

/-- C10: a scan is not read-only with respect to `update` nodes.  With
the store holding `c = c0`, one `Interview.next()` call over the
single-update document completes with `c = c0 + v` (the node's value
added once), and a second call with no intervening commit adds it
again, ending at `c = c0 + v + v`: repeated scans are not idempotent
on the store. -/
theorem C10_update_reruns_on_every_scan (c0 v : Int) :
    nextFuel env0 Option.none 1 1 [c10Config v]
        (Assoc.cons "c" (.leaf (.int c0)) .nil) =
      (.finished, [c10Config v], Assoc.cons "c" (.leaf (.int (c0 + v))) .nil) ∧
    (nextFuel env0 Option.none 1 1 [c10Config v]
        ((nextFuel env0 Option.none 1 1 [c10Config v]
            (Assoc.cons "c" (.leaf (.int c0)) .nil)).2.2)).2.2 =
      Assoc.cons "c" (.leaf (.int (c0 + v + v))) .nil :=
  ⟨rfl, rfl⟩

end HpctInterview
